import Mathlib

/-!
Verification of the CFBasic interpreter driver, bounded allocator, screen
editor and CLI against their natural-language specification.

The definitions below are a shallow embedding of the C sources:

* utils.c — the bounded allocator (safe_malloc, safe_realloc, safe_free,
  init_memory) and parse_memory_size;
* editor.c — editor_plot and editor_poke_char over the screen buffer;
* cfbasic.c — extract_line_number, the repl loop body and the command-line
  argument loop of main.

All size_t arithmetic is modelled over Nat with explicit reduction modulo
2^64 exactly where the C code computes in size_t, so overflow behaves as on
the machine.  int values are modelled as Int with explicit 32-bit wrapping
where the C code narrows.
-/

namespace CFBasic

/-- Modulus of size_t on the 64-bit targets the program is built for
(2 ^ 64). -/
def W : Nat := 18446744073709551616

/-- sizeof(size_t) on the 64-bit targets: the per-allocation header overhead
that safe_malloc prepends to every block. -/
def szSizeT : Nat := 8

/-- Addition of two size_t values (wraps modulo 2^64). -/
def stAdd (a b : Nat) : Nat := (a + b) % W

/-- Subtraction of two size_t values (wraps modulo 2^64); both arguments are
first reduced, matching machine behaviour for values already below 2^64. -/
def stSub (a b : Nat) : Nat := (a % W + (W - b % W)) % W

/-- State of the bounded allocator of utils.c: the two globals
total_memory_limit and memory_used, plus the set of live blocks.  Each live
block is recorded as (handle, header) where the header is the size value the
C code stores in the size_t cell immediately before the user pointer.
Handles stand for the pointers malloc returns; next_handle keeps them
fresh. -/
structure MemState where
  total_memory_limit : Nat
  memory_used : Nat
  next_handle : Nat
  allocs : List (Nat × Nat)
deriving Repr, DecidableEq

/-- Outcome of one safe_malloc / safe_realloc call.
ok h: a non-null pointer (handle h) is returned;
outOfMemory: the ledger check failed, error("OUT OF MEMORY") is printed and
NULL is returned (recoverable);
fatal: the underlying system allocator returned NULL, error("SYSTEM OUT OF
MEMORY") is printed and the process exits with status 1. -/
inductive MallocResult where
  | ok (h : Nat)
  | outOfMemory
  | fatal
deriving Repr, DecidableEq

/-- init_memory from utils.c: sets the limit and resets memory_used to 0. -/
def init_memory (limit : Nat) : MemState :=
  { total_memory_limit := limit, memory_used := 0, next_handle := 0, allocs := [] }

/-- safe_malloc from utils.c.  sysOk tells whether the underlying system
malloc succeeds (true) or returns NULL (false); the C source leaves that to
libc, so it is an oracle input here.  Mirrors the source line by line:
total_size = size + sizeof(size_t); the ledger check
memory_used + total_size > total_memory_limit is computed in size_t
arithmetic; on success the header stores size and memory_used grows by
total_size. -/
def safe_malloc (size : Nat) (sysOk : Bool) (s : MemState) :
    MallocResult × MemState :=
  let total_size := stAdd size szSizeT
  if stAdd s.memory_used total_size > s.total_memory_limit then
    (.outOfMemory, s)
  else if !sysOk then
    (.fatal, s)
  else
    (.ok s.next_handle,
      { s with
        memory_used := stAdd s.memory_used total_size
        next_handle := s.next_handle + 1
        allocs := (s.next_handle, size % W) :: s.allocs })

/-- Lookup of the header stored for handle h (the read of
*(size_t *)real_ptr in safe_free). -/
def findSize (h : Nat) : List (Nat × Nat) → Option Nat
  | [] => none
  | (k, v) :: rest => if k = h then some v else findSize h rest

/-- Removal of the block for handle h from the live set (the free(real_ptr)
in safe_free). -/
def freeEntry (h : Nat) : List (Nat × Nat) → List (Nat × Nat)
  | [] => []
  | (k, v) :: rest => if k = h then rest else (k, v) :: freeEntry h rest

/-- safe_free from utils.c.  A null pointer (none) is ignored by the
guarding if (ptr).  For a live handle the stored header size is read back
and memory_used is decremented by size + sizeof(size_t) in size_t
arithmetic.  Freeing a handle that is not live is undefined behaviour in the
source (a double free); the model leaves the state unchanged on that branch,
and every claim below restricts itself to frees of live handles. -/
def safe_free (ptr : Option Nat) (s : MemState) : MemState :=
  match ptr with
  | none => s
  | some h =>
    match findSize h s.allocs with
    | none => s
    | some size =>
      { s with
        memory_used := stSub s.memory_used (size + szSizeT)
        allocs := freeEntry h s.allocs }

/-- Replacement of the header for handle h (the write
*(size_t *)new_ptr = new_size in safe_realloc). -/
def setSize (h : Nat) (newSize : Nat) : List (Nat × Nat) → List (Nat × Nat)
  | [] => []
  | (k, v) :: rest =>
    if k = h then (k, newSize) :: rest else (k, v) :: setSize h newSize rest

/-- safe_realloc from utils.c.  A null input pointer delegates to
safe_malloc.  Otherwise the ledger check
memory_used - total_old_size + total_new_size > total_memory_limit is
computed in size_t arithmetic; when it trips, error("OUT OF MEMORY") is
printed and NULL is returned with nothing mutated.  When the system realloc
fails the process exits (fatal).  On success the header and memory_used are
updated; the handle is kept for the (possibly moved) block. -/
def safe_realloc (ptr : Option Nat) (old_size new_size : Nat) (sysOk : Bool)
    (s : MemState) : MallocResult × MemState :=
  match ptr with
  | none => safe_malloc new_size sysOk s
  | some h =>
    let total_new_size := stAdd new_size szSizeT
    let total_old_size := stAdd old_size szSizeT
    if stAdd (stSub s.memory_used total_old_size) total_new_size >
        s.total_memory_limit then
      (.outOfMemory, s)
    else if !sysOk then
      (.fatal, s)
    else
      (.ok h,
        { s with
          memory_used := stAdd (stSub s.memory_used total_old_size) total_new_size
          allocs := setSize h (new_size % W) s.allocs })

/-- get_free_memory from utils.c. -/
def get_free_memory (s : MemState) : Nat :=
  s.total_memory_limit - s.memory_used

/-- One call in a client sequence against the allocator: either a
safe_malloc of a given size (with the system-malloc oracle outcome) or a
safe_free of a given handle. -/
inductive AllocOp where
  | malloc (size : Nat) (sysOk : Bool)
  | free (h : Nat)
deriving Repr, DecidableEq

/-- State after one allocator call (the returned pointer is dropped; the
handle set in the state tracks ownership). -/
def applyOp (s : MemState) : AllocOp → MemState
  | .malloc size sysOk => (safe_malloc size sysOk s).2
  | .free h => safe_free (some h) s

/-- State after a sequence of allocator calls. -/
def runOps (s : MemState) (ops : List AllocOp) : MemState :=
  ops.foldl applyOp s

/-- Validity of a call sequence in the sense of the specification: every
safe_free releases a handle that is live at that point (each free matches an
earlier allocation, and no handle is freed twice because freeing removes it
from the live set). -/
def validFrom (s : MemState) : List AllocOp → Bool
  | [] => true
  | op :: rest =>
    (match op with
      | .malloc _ _ => true
      | .free h => (findSize h s.allocs).isSome) && validFrom (applyOp s op) rest

/-- Absence of size_t overflow in the admission check: every requested size
keeps limit + size + 8 below 2^64.  Since memory_used never exceeds the
limit, this makes every sum the allocator computes exact. -/
def sizesOk (limit : Nat) : List AllocOp → Bool
  | [] => true
  | .malloc size _ :: rest => decide (limit + size + szSizeT < W) && sizesOk limit rest
  | .free _ :: rest => sizesOk limit rest

/-- Sum of the per-block charges (header size + 8, as a size_t value)
over the live set: what memory_used is supposed to equal. -/
def sumCharges (allocs : List (Nat × Nat)) : Nat :=
  (allocs.map (fun p => (p.2 + szSizeT) % W)).sum

theorem sumCharges_nil : sumCharges [] = 0 := rfl

theorem sumCharges_cons (k v : Nat) (l : List (Nat × Nat)) :
    sumCharges ((k, v) :: l) = (v + szSizeT) % W + sumCharges l := by
  simp [sumCharges]

theorem findSize_le_sumCharges {h sz : Nat} {l : List (Nat × Nat)}
    (hf : findSize h l = some sz) : (sz + szSizeT) % W ≤ sumCharges l := by
  induction l with
  | nil => simp [findSize] at hf
  | cons p rest ih =>
    obtain ⟨k, v⟩ := p
    rw [sumCharges_cons]
    rw [findSize] at hf
    by_cases hk : k = h
    · simp [hk] at hf
      subst hf
      omega
    · simp [hk] at hf
      have := ih hf
      omega

theorem sumCharges_freeEntry {h sz : Nat} {l : List (Nat × Nat)}
    (hf : findSize h l = some sz) :
    sumCharges (freeEntry h l) = sumCharges l - (sz + szSizeT) % W := by
  induction l with
  | nil => simp [findSize] at hf
  | cons p rest ih =>
    obtain ⟨k, v⟩ := p
    rw [findSize] at hf
    rw [freeEntry]
    by_cases hk : k = h
    · simp only [if_pos hk]
      simp [hk] at hf
      subst hf
      rw [sumCharges_cons]
      omega
    · simp only [if_neg hk]
      simp [hk] at hf
      have hle := findSize_le_sumCharges hf
      rw [sumCharges_cons, sumCharges_cons, ih hf]
      omega

/-- Ledger well-formedness: the configured limit is the given one,
memory_used equals the sum of the live charges, and memory_used is within
the limit. -/
def LedgerInv (limit : Nat) (s : MemState) : Prop :=
  s.total_memory_limit = limit ∧
  s.memory_used = sumCharges s.allocs ∧
  s.memory_used ≤ limit

theorem stAdd_eq_of_lt {a b : Nat} (h : a + b < W) : stAdd a b = a + b := by
  unfold stAdd W at *
  omega

theorem stSub_eq_of_le {a b : Nat} (ha : a < W) (hb : b % W ≤ a) :
    stSub a b = a - b % W := by
  unfold stSub W at *
  omega

theorem safe_malloc_cases (size : Nat) (sysOk : Bool) (s : MemState) :
    (safe_malloc size sysOk s).2 = s ∨
    (stAdd s.memory_used (stAdd size szSizeT) ≤ s.total_memory_limit ∧
      sysOk = true ∧
      (safe_malloc size sysOk s).2 =
        { s with
          memory_used := stAdd s.memory_used (stAdd size szSizeT)
          next_handle := s.next_handle + 1
          allocs := (s.next_handle, size % W) :: s.allocs }) := by
  by_cases h1 : stAdd s.memory_used (stAdd size szSizeT) > s.total_memory_limit
  · left; simp [safe_malloc, h1]
  · cases sysOk with
    | false => left; simp [safe_malloc, h1]
    | true =>
      right
      refine ⟨by omega, rfl, ?_⟩
      simp [safe_malloc, h1]

theorem safe_free_live {s : MemState} {h sz : Nat}
    (hsz : findSize h s.allocs = some sz) :
    safe_free (some h) s =
      { s with
        memory_used := stSub s.memory_used (sz + szSizeT)
        allocs := freeEntry h s.allocs } := by
  simp [safe_free, hsz]

theorem ledger_step_malloc {limit : Nat} {s : MemState} (size : Nat)
    (sysOk : Bool) (_hW : limit < W) (hs : LedgerInv limit s)
    (hsz : limit + size + szSizeT < W) :
    LedgerInv limit (safe_malloc size sysOk s).2 := by
  obtain ⟨hl, hsum, hle⟩ := hs
  have h8 : size + szSizeT < W := by omega
  have ht : stAdd size szSizeT = size + szSizeT := stAdd_eq_of_lt h8
  have htot : stAdd s.memory_used (stAdd size szSizeT) =
      s.memory_used + (size + szSizeT) := by
    rw [ht]; exact stAdd_eq_of_lt (by omega)
  rcases safe_malloc_cases size sysOk s with hcase | ⟨hcheck, _, hcase⟩
  · rw [hcase]; exact ⟨hl, hsum, hle⟩
  · rw [hcase]
    rw [htot] at hcheck
    refine ⟨hl, ?_, ?_⟩
    · simp only [htot, sumCharges_cons]
      have hszW : size % W = size := Nat.mod_eq_of_lt (by omega)
      have hmod : (size + szSizeT) % W = size + szSizeT := Nat.mod_eq_of_lt h8
      rw [hszW, hmod]
      omega
    · simp only [htot]
      rw [hl] at hcheck
      exact hcheck

theorem ledger_step_free {limit : Nat} {s : MemState} (h : Nat)
    (hW : limit < W) (hs : LedgerInv limit s)
    (hv : (findSize h s.allocs).isSome = true) :
    LedgerInv limit (safe_free (some h) s) := by
  obtain ⟨hl, hsum, hle⟩ := hs
  obtain ⟨sz, hsz⟩ := Option.isSome_iff_exists.mp hv
  have hcharge : (sz + szSizeT) % W ≤ sumCharges s.allocs :=
    findSize_le_sumCharges hsz
  have hused : s.memory_used < W := by omega
  rw [safe_free_live hsz]
  refine ⟨hl, ?_, ?_⟩
  · simp only
    rw [stSub_eq_of_le hused (by omega), sumCharges_freeEntry hsz, hsum]
  · simp only
    rw [stSub_eq_of_le hused (by omega)]
    omega

theorem validFrom_cons (s : MemState) (op : AllocOp) (rest : List AllocOp) :
    validFrom s (op :: rest) =
      ((match op with
        | .malloc _ _ => true
        | .free h => (findSize h s.allocs).isSome) &&
        validFrom (applyOp s op) rest) := rfl

theorem sizesOk_cons_malloc (limit size : Nat) (sysOk : Bool)
    (rest : List AllocOp) :
    sizesOk limit (.malloc size sysOk :: rest) =
      (decide (limit + size + szSizeT < W) && sizesOk limit rest) := rfl

theorem sizesOk_cons_free (limit h : Nat) (rest : List AllocOp) :
    sizesOk limit (.free h :: rest) = sizesOk limit rest := rfl

theorem ledger_run {limit : Nat} (ops : List AllocOp) :
    ∀ s : MemState, limit < W → LedgerInv limit s →
      sizesOk limit ops = true → validFrom s ops = true →
      ∀ n : Nat, LedgerInv limit (runOps s (ops.take n)) := by
  induction ops with
  | nil =>
    intro s _ hs _ _ n
    simpa [runOps] using hs
  | cons op rest ih =>
    intro s hW hs hsz hv n
    rw [validFrom_cons, Bool.and_eq_true] at hv
    match n with
    | 0 => simpa [runOps] using hs
    | Nat.succ m =>
      rw [List.take_succ_cons]
      have hstep : LedgerInv limit (applyOp s op) := by
        match op with
        | .malloc size sysOk =>
          rw [sizesOk_cons_malloc, Bool.and_eq_true] at hsz
          exact ledger_step_malloc size sysOk hW hs (of_decide_eq_true hsz.1)
        | .free h =>
          exact ledger_step_free h hW hs hv.1
      have hrest : runOps s (op :: rest.take m) =
          runOps (applyOp s op) (rest.take m) := rfl
      rw [hrest]
      refine ih (applyOp s op) hW hstep ?_ hv.2 m
      match op with
      | .malloc size sysOk =>
        rw [sizesOk_cons_malloc, Bool.and_eq_true] at hsz
        exact hsz.2
      | .free h =>
        rw [sizesOk_cons_free] at hsz
        exact hsz

/-- C1 (amended): starting from init_memory, along every sequence of
safe_malloc and safe_free calls in which each safe_free releases exactly a
handle previously returned and still live (no double free), and in which
every requested size keeps limit + size + 8 below 2^64 (so the size_t
admission arithmetic cannot wrap), the live-byte counter memory_used never
exceeds total_memory_limit; and, unconditionally, a matched
allocate/release pair — freeing exactly the handle the allocation returned —
restores memory_used to its value before the pair. -/
theorem c1_allocator_ledger :
    (∀ (limit : Nat) (ops : List AllocOp), limit < W →
        sizesOk limit ops = true →
        validFrom (init_memory limit) ops = true →
        ∀ n : Nat, (runOps (init_memory limit) (ops.take n)).memory_used ≤ limit) ∧
    (∀ (s s₂ : MemState) (size h : Nat),
        s.memory_used < W →
        safe_malloc size true s = (.ok h, s₂) →
        (safe_free (some h) s₂).memory_used = s.memory_used) := by
  constructor
  · intro limit ops hW hsz hv n
    have hinit : LedgerInv limit (init_memory limit) := by
      refine ⟨rfl, rfl, Nat.zero_le _⟩
    exact (ledger_run ops (init_memory limit) hW hinit hsz hv n).2.2
  · intro s s₂ size h hused heq
    unfold safe_malloc at heq
    by_cases h1 : stAdd s.memory_used (stAdd size szSizeT) > s.total_memory_limit
    · simp [h1] at heq
    · simp [h1] at heq
      obtain ⟨hh, hs₂⟩ := heq
      subst hh
      rw [← hs₂]
      have hfind : findSize s.next_handle
          ((s.next_handle, size % W) :: s.allocs) = some (size % W) := by
        rw [findSize]
        simp
      have hfree := safe_free_live (s :=
        { s with
          memory_used := stAdd s.memory_used (stAdd size szSizeT)
          next_handle := s.next_handle + 1
          allocs := (s.next_handle, size % W) :: s.allocs }) hfind
      rw [hfree]
      simp only
      unfold stAdd stSub szSizeT W at *
      omega

/-- C1 counterexample: the claim as frozen (no overflow caveat) is false.
Under limit 1000, the sequence safe_malloc(892), safe_malloc(2^64 - 408),
safe_free(first handle) is valid in the claim's sense — every free releases
exactly a live returned handle, no double free — yet after it memory_used is
2^64 - 400, far above the limit: the size_t admission check wraps, so the
second allocation is admitted and the subsequent free drives the wrapped
counter above the ceiling. -/
theorem c1_counterexample :
    validFrom (init_memory 1000)
        [.malloc 892 true, .malloc 18446744073709551208 true, .free 0] = true ∧
    (runOps (init_memory 1000)
        [.malloc 892 true, .malloc 18446744073709551208 true, .free 0]).memory_used
      > 1000 := by
  exact ⟨by decide, by decide⟩

/-- C1 witness: the amended theorem applied to a concrete run — limit 100,
allocate 4 bytes then free the returned handle 0 — and to a concrete
matched pair. -/
theorem c1_allocator_ledger_witness :
    (runOps (init_memory 100)
        (([AllocOp.malloc 4 true, AllocOp.free 0]).take 2)).memory_used ≤ 100 ∧
    (safe_free (some 0)
        { total_memory_limit := 100, memory_used := 12, next_handle := 1,
          allocs := [(0, 4)] }).memory_used = (init_memory 100).memory_used := by
  constructor
  · exact c1_allocator_ledger.1 100 [AllocOp.malloc 4 true, AllocOp.free 0]
      (by decide) (by decide) (by decide) 2
  · exact c1_allocator_ledger.2 (init_memory 100)
      { total_memory_limit := 100, memory_used := 12, next_handle := 1,
        allocs := [(0, 4)] } 4 0 (by decide) (by decide)

/-- C2 (amended): provided memory_used + size + 8 does not overflow size_t
(stays below 2^64), safe_malloc fails recoverably — prints an error and
returns a null handle with the state untouched, without terminating the
process — exactly when memory_used + size + 8 exceeds total_memory_limit,
and only a failure of the underlying system allocator below the ceiling
terminates the process.  Without the overflow proviso the equivalence is
false (see the counterexample). -/
theorem c2_safe_malloc_failure :
    ∀ (size : Nat) (sysOk : Bool) (s : MemState),
      s.memory_used + size + szSizeT < W →
      (((safe_malloc size sysOk s).1 = .outOfMemory ↔
          s.memory_used + size + szSizeT > s.total_memory_limit) ∧
        ((safe_malloc size sysOk s).1 = .fatal ↔
          s.memory_used + size + szSizeT ≤ s.total_memory_limit ∧ sysOk = false) ∧
        ((safe_malloc size sysOk s).1 = .outOfMemory →
          (safe_malloc size sysOk s).2 = s)) := by
  intro size sysOk s hov
  have h1 : stAdd size szSizeT = size + szSizeT := stAdd_eq_of_lt (by omega)
  have h2 : stAdd s.memory_used (stAdd size szSizeT) =
      s.memory_used + size + szSizeT := by
    rw [h1, stAdd_eq_of_lt (by omega)]
    omega
  cases sysOk with
  | false =>
    by_cases hc : s.memory_used + size + szSizeT > s.total_memory_limit
    · have hpair : safe_malloc size false s = (.outOfMemory, s) := by
        simp [safe_malloc, h2, hc]
      refine ⟨?_, ?_, ?_⟩
      · rw [hpair]; simp; omega
      · rw [hpair]; simp; omega
      · rw [hpair]; intro _; rfl
    · have hpair : safe_malloc size false s = (.fatal, s) := by
        simp [safe_malloc, h2, hc]
      refine ⟨?_, ?_, ?_⟩
      · rw [hpair]; simp; omega
      · rw [hpair]; simp; omega
      · rw [hpair]; simp
  | true =>
    by_cases hc : s.memory_used + size + szSizeT > s.total_memory_limit
    · have hpair : safe_malloc size true s = (.outOfMemory, s) := by
        simp [safe_malloc, h2, hc]
      refine ⟨?_, ?_, ?_⟩
      · rw [hpair]; simp; omega
      · rw [hpair]; simp
      · rw [hpair]; intro _; rfl
    · have hpair : safe_malloc size true s =
          (.ok s.next_handle,
            { s with
              memory_used := stAdd s.memory_used (stAdd size szSizeT)
              next_handle := s.next_handle + 1
              allocs := (s.next_handle, size % W) :: s.allocs }) := by
        simp [safe_malloc, h2, hc]
      refine ⟨?_, ?_, ?_⟩
      · rw [hpair]; simp; omega
      · rw [hpair]; simp
      · rw [hpair]; simp

/-- C2 counterexample: the claim as frozen is false without the overflow
proviso.  In the reachable state with limit 1000 and memory_used 900 (after
safe_malloc(892)), requesting 2^64 - 408 bytes puts memory_used + size + 8
far above the limit, so the claim demands a recoverable null-returning
failure; instead the wrapped size_t check admits the request, and the call
either terminates the process (system malloc fails: result fatal) or
returns a handle (system malloc succeeds) — in neither case the recoverable
failure the claim requires. -/
theorem c2_counterexample :
    ((safe_malloc 892 true (init_memory 1000)).2.memory_used
        + (W - 408) + szSizeT > 1000) ∧
    (safe_malloc (W - 408) false
        (safe_malloc 892 true (init_memory 1000)).2).1 = .fatal ∧
    (safe_malloc (W - 408) true
        (safe_malloc 892 true (init_memory 1000)).2).1 ≠ .outOfMemory := by
  refine ⟨by decide, by decide, by decide⟩

/-- C2 witness: the amended theorem applied at limit 100 with memory_used 0
and size 200 (recoverable failure) — all hypotheses discharged by
computation. -/
theorem c2_safe_malloc_failure_witness :
    ((safe_malloc 200 true (init_memory 100)).1 = .outOfMemory ↔
      (init_memory 100).memory_used + 200 + szSizeT >
        (init_memory 100).total_memory_limit) ∧
    ((safe_malloc 200 true (init_memory 100)).1 = .fatal ↔
      (init_memory 100).memory_used + 200 + szSizeT ≤
        (init_memory 100).total_memory_limit ∧ true = false) ∧
    ((safe_malloc 200 true (init_memory 100)).1 = .outOfMemory →
      (safe_malloc 200 true (init_memory 100)).2 = init_memory 100) :=
  c2_safe_malloc_failure 200 true (init_memory 100) (by decide)

/-- C3: when safe_realloc of a live allocation fails against the memory
ceiling it returns NULL (result outOfMemory) with the whole allocator state
unchanged: memory_used keeps its value, and the original block is still
live with its original header, still owned by the caller. -/
theorem c3_safe_realloc_atomic :
    ∀ (s : MemState) (h old_size new_size : Nat) (sysOk : Bool),
      (findSize h s.allocs).isSome = true →
      stAdd (stSub s.memory_used (stAdd old_size szSizeT))
          (stAdd new_size szSizeT) > s.total_memory_limit →
      safe_realloc (some h) old_size new_size sysOk s = (.outOfMemory, s) ∧
      (safe_realloc (some h) old_size new_size sysOk s).2.memory_used =
        s.memory_used ∧
      findSize h (safe_realloc (some h) old_size new_size sysOk s).2.allocs =
        findSize h s.allocs := by
  intro s h old_size new_size sysOk _ hcond
  have hres : safe_realloc (some h) old_size new_size sysOk s =
      (.outOfMemory, s) := by
    simp [safe_realloc, hcond]
  exact ⟨hres, by rw [hres], by rw [hres]⟩

/-- C3 witness: the theorem applied in the state reached by
safe_malloc(10) under limit 100 (memory_used 18, handle 0 live), resizing
handle 0 from 10 to 200 bytes: 18 - 18 + 208 exceeds the limit, and the
call fails atomically. -/
theorem c3_safe_realloc_atomic_witness :
    safe_realloc (some 0) 10 200 true
        { total_memory_limit := 100, memory_used := 18, next_handle := 1,
          allocs := [(0, 10)] } =
      (.outOfMemory,
        { total_memory_limit := 100, memory_used := 18, next_handle := 1,
          allocs := [(0, 10)] }) ∧
    (safe_realloc (some 0) 10 200 true
        { total_memory_limit := 100, memory_used := 18, next_handle := 1,
          allocs := [(0, 10)] }).2.memory_used = 18 ∧
    findSize 0 (safe_realloc (some 0) 10 200 true
        { total_memory_limit := 100, memory_used := 18, next_handle := 1,
          allocs := [(0, 10)] }).2.allocs =
      findSize 0 ([((0 : Nat), (10 : Nat))]) :=
  c3_safe_realloc_atomic
    { total_memory_limit := 100, memory_used := 18, next_handle := 1,
      allocs := [(0, 10)] } 0 10 200 true (by decide) (by decide)

/-- C9: safe_free of a null handle is a total no-op — the guarding
if (ptr) skips the deallocation and the ledger decrement, so the state,
and in particular memory_used, is unchanged for every allocator state. -/
theorem c9_safe_free_null :
    ∀ s : MemState,
      safe_free none s = s ∧ (safe_free none s).memory_used = s.memory_used := by
  intro s
  exact ⟨rfl, rfl⟩

/-!
parse_memory_size from utils.c.  The function first calls the libc strtod,
obtaining a numeric value and the position endptr of the first unconsumed
character; the rest of the function is its own logic over that pair.  The
model therefore takes strtod's result as input: value is the parsed number
(strtod's double modelled as a rational — exact for every input considered
below) and rest is the text from endptr on.  The C cast
(size_t)(value * multiplier) truncates toward zero; for the nonnegative
values reaching it this is the floor.
-/

/-- Multiplier selected by the character at endptr: end of string means 1;
otherwise K/M/G (case-insensitive, via toupper) select their power of 1024
and any other character makes the input invalid (none). -/
def suffixMultiplier (rest : List Char) : Option Nat :=
  match rest with
  | [] => some 1
  | c :: _ =>
    match c.toUpper with
    | 'K' => some 1024
    | 'M' => some 1048576
    | 'G' => some 1073741824
    | _ => none

/-- parse_memory_size from utils.c over strtod's output: 0 when the value
is nonpositive or the suffix is invalid, otherwise the truncation of
value * multiplier. -/
def parse_memory_size (value : ℚ) (rest : List Char) : Nat :=
  if value ≤ 0 then 0
  else
    match suffixMultiplier rest with
    | none => 0
    | some multiplier => (⌊value * (multiplier : ℚ)⌋).toNat

theorem floor_toNat_eq_zero_iff (x : ℚ) : (⌊x⌋).toNat = 0 ↔ x < 1 := by
  rw [Int.toNat_eq_zero]
  constructor
  · intro h
    have h1 : ⌊x⌋ < 1 := by omega
    have := Int.floor_lt.mp h1
    simpa using this
  · intro h
    have h1 : ⌊x⌋ < 1 := Int.floor_lt.mpr (by simpa using h)
    omega

theorem parse_memory_size_of_pos {value : ℚ} {rest : List Char} {m : Nat}
    (hv : ¬ value ≤ 0) (hm : suffixMultiplier rest = some m) :
    parse_memory_size value rest = (⌊value * (m : ℚ)⌋).toNat := by
  simp [parse_memory_size, hv, hm]

/-- C10 (amended): parse_memory_size returns 0 exactly when the leading
numeric value is nonpositive, or the first character after the number is
neither the end of the string nor one of K/M/G (case-insensitive), or the
product value * multiplier is below 1 so the size_t truncation yields 0
(the case the frozen claim misses); it accepts fractional values
("0.5K" yields 512) and ignores everything after the first suffix
character ("1KB" and "1Kxyz" both yield 1024). -/
theorem c10_parse_memory_size :
    (∀ (value : ℚ) (rest : List Char),
        parse_memory_size value rest = 0 ↔
          value ≤ 0 ∨ suffixMultiplier rest = none ∨
            (∃ m : Nat, suffixMultiplier rest = some m ∧ value * (m : ℚ) < 1)) ∧
    parse_memory_size (1 / 2) ['K'] = 512 ∧
    parse_memory_size 1 ['K', 'B'] = 1024 ∧
    parse_memory_size 1 ['K', 'x', 'y', 'z'] = 1024 := by
  have hK : suffixMultiplier ['K'] = some 1024 := rfl
  have hKB : suffixMultiplier ['K', 'B'] = some 1024 := rfl
  have hKxyz : suffixMultiplier ['K', 'x', 'y', 'z'] = some 1024 := rfl
  refine ⟨?_, ?_, ?_, ?_⟩
  · intro value rest
    by_cases hv : value ≤ 0
    · simp [parse_memory_size, hv]
    · cases hm : suffixMultiplier rest with
      | none => simp [parse_memory_size, hv, hm]
      | some m =>
        rw [parse_memory_size_of_pos hv hm, floor_toNat_eq_zero_iff]
        constructor
        · intro h
          exact Or.inr (Or.inr ⟨m, rfl, h⟩)
        · rintro (h | h | ⟨m2, hm2, hlt⟩)
          · exact absurd h hv
          · exact absurd h (by simp)
          · have hmm : m = m2 := by injection hm2
            rw [hmm]
            exact hlt
  · rw [parse_memory_size_of_pos (by norm_num) hK]
    have h512 : (1 / 2 : ℚ) * ((1024 : ℕ) : ℚ) = ((512 : ℤ) : ℚ) := by norm_num
    rw [h512, Int.floor_intCast]
    rfl
  · rw [parse_memory_size_of_pos (by norm_num) hKB]
    have h1024 : (1 : ℚ) * ((1024 : ℕ) : ℚ) = ((1024 : ℤ) : ℚ) := by norm_num
    rw [h1024, Int.floor_intCast]
    rfl
  · rw [parse_memory_size_of_pos (by norm_num) hKxyz]
    have h1024 : (1 : ℚ) * ((1024 : ℕ) : ℚ) = ((1024 : ℤ) : ℚ) := by norm_num
    rw [h1024, Int.floor_intCast]
    rfl

/-- C10 counterexample: the frozen claim's "exactly when" is false — on the
input "0.3" strtod yields the positive value 0.3 with endptr at the end of
the string (a valid empty suffix), yet parse_memory_size returns 0 because
(size_t)(0.3 * 1) truncates to 0. -/
theorem c10_counterexample :
    parse_memory_size (3 / 10) [] = 0 ∧
    ¬ ((3 : ℚ) / 10 ≤ 0) ∧
    suffixMultiplier [] = some 1 := by
  refine ⟨?_, by norm_num, rfl⟩
  rw [parse_memory_size_of_pos (by norm_num) (show suffixMultiplier [] = some 1 from rfl)]
  have h0 : ⌊(3 / 10 : ℚ) * ((1 : ℕ) : ℚ)⌋ = 0 := by
    rw [Int.floor_eq_zero_iff]
    constructor <;> norm_num
  rw [h0]
  rfl

/-!
Command-line handling: the argument loop of main in cfbasic.c.  Console
output and exit codes are modelled; the call
parse_memory_size(argv[++i]) goes through the libc strtod, which is
abstracted as an oracle producing the (value, endptr-rest) pair that
parse_memory_size then consumes.
-/

/-- Text printed by print_usage in cfbasic.c. -/
def usage_text : String :=
  "Usage: cfbasic [OPTIONS] [filename]\n" ++
  "Options:\n" ++
  "  -M, --MEM <size>    Set memory limit (e.g., 1G, 512M, 2048K)\n" ++
  "  -h, --help          Show this help message\n" ++
  "  -v, --version       Show version information\n"

/-- Version string of cfbasic.c. -/
def cfbasicVersion : String := "1.0.1"

/-- Accumulated option state of main's argument loop. -/
structure CliState where
  memory_limit : Nat
  filename : Option String
deriving Repr, DecidableEq

/-- Result of main's argument loop: either an early exit with a status code
and the text written on the way out, or the interpreter proceeds with the
accumulated memory limit and optional filename. -/
inductive CliOutcome where
  | exit (code : Nat) (out : List String)
  | run (memory_limit : Nat) (filename : Option String)
deriving Repr, DecidableEq

/-- Initial option state: 64 KB memory limit, no filename. -/
def cliDefault : CliState := { memory_limit := 65536, filename := none }

/-- Argument loop of main in cfbasic.c, one argument (or -M pair) at a
time.  strtodOf is the libc strtod oracle feeding parse_memory_size. -/
def cliRun (strtodOf : String → ℚ × List Char) :
    List String → CliState → CliOutcome
  | [], st => .run st.memory_limit st.filename
  | a :: rest, st =>
    if a = "-M" ∨ a = "--MEM" then
      match rest with
      | [] => .exit 1 ["Missing memory size argument\n", usage_text]
      | sz :: rest2 =>
        let m := parse_memory_size (strtodOf sz).1 (strtodOf sz).2
        if m = 0 then .exit 1 ["Invalid memory size: " ++ sz ++ "\n"]
        else cliRun strtodOf rest2 { st with memory_limit := m }
    else if a = "-h" ∨ a = "--help" then .exit 0 [usage_text]
    else if a = "-v" ∨ a = "--version" then
      .exit 0 ["CFBASIC V" ++ cfbasicVersion ++ "\n"]
    else if a.data.head? ≠ some '-' then
      cliRun strtodOf rest { st with filename := some a }
    else .exit 1 ["Unknown option: " ++ a ++ "\n", usage_text]

theorem cliRun_cons (strtodOf : String → ℚ × List Char) (a : String)
    (rest : List String) (st : CliState) :
    cliRun strtodOf (a :: rest) st =
      (if a = "-M" ∨ a = "--MEM" then
        match rest with
        | [] => .exit 1 ["Missing memory size argument\n", usage_text]
        | sz :: rest2 =>
          let m := parse_memory_size (strtodOf sz).1 (strtodOf sz).2
          if m = 0 then .exit 1 ["Invalid memory size: " ++ sz ++ "\n"]
          else cliRun strtodOf rest2 { st with memory_limit := m }
      else if a = "-h" ∨ a = "--help" then .exit 0 [usage_text]
      else if a = "-v" ∨ a = "--version" then
        .exit 0 ["CFBASIC V" ++ cfbasicVersion ++ "\n"]
      else if a.data.head? ≠ some '-' then
        cliRun strtodOf rest { st with filename := some a }
      else .exit 1 ["Unknown option: " ++ a ++ "\n", usage_text]) := by
  rw [cliRun.eq_def]

/-- C7: whenever the argument loop reaches a -M or --MEM whose size
argument makes parse_memory_size return 0, it exits with status 1 after
reporting the invalid size (a fatal startup error); an unknown option
(leading dash, none of the six recognized forms) prints the usage text and
exits 1; -h and --help print usage and exit 0; -v and --version print the
version and exit 0 — from any reachable loop state and whatever arguments
follow. -/
theorem c7_cli_exit_behavior :
    (∀ (strtodOf : String → ℚ × List Char) (st : CliState) (a s : String)
        (rest : List String),
        (a = "-M" ∨ a = "--MEM") →
        parse_memory_size (strtodOf s).1 (strtodOf s).2 = 0 →
        cliRun strtodOf (a :: s :: rest) st =
          .exit 1 ["Invalid memory size: " ++ s ++ "\n"]) ∧
    (∀ (strtodOf : String → ℚ × List Char) (st : CliState) (a : String)
        (rest : List String),
        a.data.head? = some '-' →
        ¬ (a = "-M" ∨ a = "--MEM" ∨ a = "-h" ∨ a = "--help" ∨
            a = "-v" ∨ a = "--version") →
        cliRun strtodOf (a :: rest) st =
          .exit 1 ["Unknown option: " ++ a ++ "\n", usage_text]) ∧
    (∀ (strtodOf : String → ℚ × List Char) (st : CliState) (a : String)
        (rest : List String),
        (a = "-h" ∨ a = "--help") →
        cliRun strtodOf (a :: rest) st = .exit 0 [usage_text]) ∧
    (∀ (strtodOf : String → ℚ × List Char) (st : CliState) (a : String)
        (rest : List String),
        (a = "-v" ∨ a = "--version") →
        cliRun strtodOf (a :: rest) st =
          .exit 0 ["CFBASIC V" ++ cfbasicVersion ++ "\n"]) := by
  refine ⟨?_, ?_, ?_, ?_⟩
  · intro strtodOf st a s rest ha hparse
    rcases ha with ha | ha <;> subst ha <;>
      rw [cliRun_cons] <;> simp [hparse]
  · intro strtodOf st a rest hdash hnone
    push_neg at hnone
    obtain ⟨h1, h2, h3, h4, h5, h6⟩ := hnone
    rw [cliRun_cons]
    simp [h1, h2, h3, h4, h5, h6, hdash]
  · intro strtodOf st a rest ha
    rcases ha with ha | ha <;> subst ha <;> rw [cliRun_cons] <;> simp
  · intro strtodOf st a rest ha
    rcases ha with ha | ha <;> subst ha <;> rw [cliRun_cons] <;> simp

/-- C7 witness: the theorem applied at concrete argument vectors — an
invalid size for -M (strtod yields 0), the unknown option "-x", and
-h and -v. -/
theorem c7_cli_exit_behavior_witness :
    cliRun (fun _ => ((0 : ℚ), [])) ["-M", "junk"] cliDefault =
      .exit 1 ["Invalid memory size: junk\n"] ∧
    cliRun (fun _ => ((0 : ℚ), [])) ["-x"] cliDefault =
      .exit 1 ["Unknown option: -x\n", usage_text] ∧
    cliRun (fun _ => ((0 : ℚ), [])) ["-h"] cliDefault = .exit 0 [usage_text] ∧
    cliRun (fun _ => ((0 : ℚ), [])) ["-v"] cliDefault =
      .exit 0 ["CFBASIC V" ++ cfbasicVersion ++ "\n"] := by
  refine ⟨?_, ?_, ?_, ?_⟩
  · exact c7_cli_exit_behavior.1 (fun _ => ((0 : ℚ), [])) cliDefault "-M" "junk"
      [] (Or.inl rfl) (by decide)
  · exact c7_cli_exit_behavior.2.1 (fun _ => ((0 : ℚ), [])) cliDefault "-x" []
      (by decide) (by decide)
  · exact c7_cli_exit_behavior.2.2.1 (fun _ => ((0 : ℚ), [])) cliDefault "-h" []
      (Or.inl rfl)
  · exact c7_cli_exit_behavior.2.2.2 (fun _ => ((0 : ℚ), [])) cliDefault "-v" []
      (Or.inl rfl)

/-!
Screen editor from editor.c: the Editor structure (editor.h) and the two
buffer-writing primitives editor_plot and editor_poke_char.  The terminal
side effects (cursor escape codes, putchar) fall outside the screen-buffer
state and are not part of the claims; the buffer is the flat rows by cols
character array, indexed row-major as in the C code.  C int values are
modelled as Int, with Int.tdiv for the truncating int division.
-/

/-- Editor state from editor.h: window geometry, cursor, and the flat
screen buffer. -/
structure Editor where
  rows : Int
  cols : Int
  cursor_row : Int
  cursor_col : Int
  buffer : List Char
deriving Repr, DecidableEq

/-- editor_plot from editor.c: writes one character cell at column x,
row y; coordinates outside the grid are rejected before any write. -/
def editor_plot (ed : Editor) (x y : Int) (c : Char) : Editor :=
  if x < 0 ∨ x ≥ ed.cols ∨ y < 0 ∨ y ≥ ed.rows then ed
  else { ed with buffer := ed.buffer.set (y * ed.cols + x).toNat c }

/-- CBM screen-code to ASCII conversion table of editor_poke_char. -/
def cbmToAscii (val : Nat) : Char :=
  if 1 ≤ val ∧ val ≤ 26 then Char.ofNat (val + 64)
  else if 27 ≤ val ∧ val ≤ 31 then Char.ofNat (val + 64)
  else if 32 ≤ val ∧ val ≤ 63 then Char.ofNat val
  else if 64 ≤ val ∧ val ≤ 95 then Char.ofNat (val + 32)
  else if 96 ≤ val ∧ val ≤ 127 then Char.ofNat val
  else '?'

/-- editor_poke_char from editor.c: addresses are mapped into the 40 x 25
text screen at base 1024; offsets outside [0, 1000) are rejected, otherwise
the cell is scaled to the terminal grid and written through editor_plot. -/
def editor_poke_char (ed : Editor) (addr : Int) (val : Nat) : Editor :=
  let offset : Int := addr - 1024
  if offset < 0 ∨ offset ≥ 1000 then ed
  else
    let o : Nat := offset.toNat
    let r : Nat := o / 40
    let c : Nat := o % 40
    let ch : Char := cbmToAscii val
    let tr : Int := ((r : Int) * ed.rows).tdiv 25
    let tc : Int := ((c : Int) * ed.cols).tdiv 40
    editor_plot ed tc tr ch

/-- C8: out-of-bounds screen writes are silently ignored and leave the
editor state — screen buffer and cursor — unchanged: editor_plot with x
outside [0, cols) or y outside [0, rows) returns the state untouched, and
editor_poke_char with an address outside the text-screen range
[1024, 2023] performs no write at all. -/
theorem c8_oob_writes_ignored :
    (∀ (ed : Editor) (x y : Int) (c : Char),
        (x < 0 ∨ x ≥ ed.cols ∨ y < 0 ∨ y ≥ ed.rows) →
        editor_plot ed x y c = ed) ∧
    (∀ (ed : Editor) (addr : Int) (val : Nat),
        (addr < 1024 ∨ addr > 2023) →
        editor_poke_char ed addr val = ed) := by
  constructor
  · intro ed x y c h
    simp only [editor_plot, if_pos h]
  · intro ed addr val h
    have hoff : (addr - 1024 < 0 ∨ addr - 1024 ≥ 1000) := by omega
    simp only [editor_poke_char, if_pos hoff]

/-- C8 witness: the theorem applied on a concrete 2 x 2 editor, plotting at
column 5 (out of range) and poking address 100 (below the screen base). -/
theorem c8_oob_writes_ignored_witness :
    editor_plot
      { rows := 2, cols := 2, cursor_row := 0, cursor_col := 0,
        buffer := ['A', 'B', 'C', 'D'] } 5 0 'Z' =
      { rows := 2, cols := 2, cursor_row := 0, cursor_col := 0,
        buffer := ['A', 'B', 'C', 'D'] } ∧
    editor_poke_char
      { rows := 2, cols := 2, cursor_row := 0, cursor_col := 0,
        buffer := ['A', 'B', 'C', 'D'] } 100 1 =
      { rows := 2, cols := 2, cursor_row := 0, cursor_col := 0,
        buffer := ['A', 'B', 'C', 'D'] } := by
  constructor
  · exact c8_oob_writes_ignored.1
      { rows := 2, cols := 2, cursor_row := 0, cursor_col := 0,
        buffer := ['A', 'B', 'C', 'D'] } 5 0 'Z' (by decide)
  · exact c8_oob_writes_ignored.2
      { rows := 2, cols := 2, cursor_row := 0, cursor_col := 0,
        buffer := ['A', 'B', 'C', 'D'] } 100 1 (by decide)

/-!
Line routing and the repl loop body from cfbasic.c.  Input lines are byte
strings of ASCII text, modelled as Lean strings (one Char per byte).
extract_line_number calls the libc strtol with base 10 on text whose first
non-blank character is a decimal digit, so strtol consumes exactly the
leading digit run, returning a long that saturates at LONG_MAX on
overflow; the C code then narrows that long to int, which on the 32-bit
int targets wraps two's complement.  Both steps are modelled explicitly.
-/

/-- Blank skipping of extract_line_number: space (32) and tab (9). -/
def skipSpaceTab : List Char → List Char
  | [] => []
  | c :: rest => if c.toNat = 32 ∨ c.toNat = 9 then skipSpaceTab rest else c :: rest

/-- isdigit on an ASCII character. -/
def isDigitCh (c : Char) : Bool := decide (48 ≤ c.toNat ∧ c.toNat ≤ 57)

/-- Numeric value of a run of decimal digits. -/
def natOfDigits (l : List Char) : Nat :=
  l.foldl (fun acc c => acc * 10 + (c.toNat - 48)) 0

/-- LONG_MAX on the 64-bit targets: strtol saturates here on overflow. -/
def longMax : Nat := 9223372036854775807

/-- Conversion of a nonnegative long value to int: two's complement
truncation to 32 bits, as gcc and clang define the narrowing. -/
def intOfLong (v : Nat) : Int :=
  let m := v % 4294967296
  if m < 2147483648 then (m : Int) else (m : Int) - 4294967296

/-- extract_line_number from cfbasic.c: skip blanks; a line not starting
with a digit yields -1; otherwise the digit run is parsed by strtol
(saturating at LONG_MAX), narrowed to int, and the text after the number
with following blanks skipped is handed back through rest. -/
def extract_line_number (line : List Char) : Int × List Char :=
  match skipSpaceTab line with
  | [] => (-1, [])
  | c :: rest =>
    if isDigitCh c then
      let digits := (c :: rest).takeWhile isDigitCh
      let after := (c :: rest).dropWhile isDigitCh
      (intOfLong (min (natOfDigits digits) longMax), skipSpaceTab after)
    else (-1, c :: rest)

/-- Whether the line starts, after blanks, with a decimal digit (the
is_immediate_command test of cfbasic.c, negated). -/
def digitStart (line : List Char) : Bool :=
  match skipSpaceTab line with
  | [] => false
  | c :: _ => isDigitCh c

/-- Routing decision of the repl loop for one nonempty line: a nonnegative
extracted line number sends the line to the Program Store through
program_add_line with the text after the number; everything else is
dispatched as an immediate command. -/
inductive Routed where
  | stored (n : Int) (restText : List Char)
  | immediate
deriving Repr, DecidableEq

/-- Routing of one line in the repl loop of cfbasic.c. -/
def route_line (line : List Char) : Routed :=
  let res := extract_line_number line
  if res.1 ≥ 0 then .stored res.1 res.2 else .immediate

/-- Interpreter-state fields of cfbasic.c that the repl loop reads and
writes, plus the record of program_add_line calls (the Program Store
implementation lives in the interpreter sources outside this
verification; the call with its two arguments is the observable here,
most recent first). -/
structure ReplState where
  break_requested : Bool
  exit_requested : Bool
  error_occurred : Bool
  error_message : Option String
  program : List (Int × List Char)
deriving Repr, DecidableEq

/-- Whether the repl loop body goes on to the next iteration or leaves the
loop. -/
inductive StepResult where
  | next
  | exitLoop
deriving Repr, DecidableEq

/-- Error line built by the repl loop: snprintf into the 256-byte err_buf
writes at most 255 characters of "?<MESSAGE> ERROR\n" (messages are
ASCII, one byte per character). -/
def errorLine (m : String) : String :=
  String.mk (("?" ++ m ++ " ERROR\n").data.take 255)

/-- One iteration of the repl loop body of cfbasic.c.  input is the result
of editor_read_line (none for NULL: end of input or a read interrupted by
SIGINT); exec is the execute_immediate_command collaborator — its
interpreter internals live outside cfbasic.c, so it is an arbitrary state
transformer that may print output of its own.  The returned list is the
text the driver prints this iteration, in order. -/
def repl_step (input : Option String)
    (exec : ReplState → ReplState × List String) (s : ReplState) :
    ReplState × List String × StepResult :=
  match input with
  | none =>
    if s.break_requested then
      ({ s with break_requested := false }, ["?BREAK\nREADY.\n"], .next)
    else
      (s, [], .exitLoop)
  | some line =>
    if line.length > 0 then
      match route_line line.data with
      | .stored n rest =>
        ({ s with program := (n, rest) :: s.program }, [], .next)
      | .immediate =>
        let r := exec s
        let s2 := r.1
        let r2 : ReplState × List String :=
          if s2.error_occurred then
            match s2.error_message with
            | some m =>
              ({ s2 with error_occurred := false, error_message := none },
                [errorLine m])
            | none => ({ s2 with error_occurred := false }, ["?ERROR\n"])
          else (s2, [])
        let s3 := r2.1
        let ready : List String :=
          if s3.exit_requested then [] else ["READY.\n"]
        (s3, r.2 ++ r2.2 ++ ready,
          if s3.exit_requested then .exitLoop else .next)
    else
      (s, [], .next)

theorem extract_line_number_nil {line : List Char}
    (h : skipSpaceTab line = []) : extract_line_number line = (-1, []) := by
  unfold extract_line_number
  rw [h]

theorem extract_line_number_nondigit {line : List Char} {c : Char}
    {rest : List Char} (h : skipSpaceTab line = c :: rest)
    (hd : isDigitCh c = false) : extract_line_number line = (-1, c :: rest) := by
  unfold extract_line_number
  rw [h]
  simp [hd]

theorem extract_line_number_digit {line : List Char} {c : Char}
    {rest : List Char} (h : skipSpaceTab line = c :: rest)
    (hd : isDigitCh c = true) :
    extract_line_number line =
      (intOfLong (min (natOfDigits ((c :: rest).takeWhile isDigitCh)) longMax),
        skipSpaceTab ((c :: rest).dropWhile isDigitCh)) := by
  unfold extract_line_number
  rw [h]
  simp [hd]

/-- C6 (amended): for every nonempty input line, the driver hands the line
to program_add_line exactly when, after skipping leading spaces and tabs,
the line begins with a decimal digit AND the digit run's value — saturated
by strtol at LONG_MAX and then wrapped two's complement into the 32-bit
int range — is nonnegative; the stored key is that extracted value, a
nonnegative (not necessarily positive: 0 is accepted) integer, and every
other line is dispatched as an immediate command. -/
theorem c6_line_routing :
    ∀ line : List Char, line ≠ [] →
      ((∃ n rest, route_line line = .stored n rest) ↔
        (digitStart line = true ∧
          0 ≤ intOfLong
            (min (natOfDigits ((skipSpaceTab line).takeWhile isDigitCh))
              longMax))) ∧
      (∀ n rest, route_line line = .stored n rest →
        n = (extract_line_number line).1 ∧ 0 ≤ n ∧
          rest = (extract_line_number line).2) ∧
      (¬ (digitStart line = true ∧
            0 ≤ intOfLong
              (min (natOfDigits ((skipSpaceTab line).takeWhile isDigitCh))
                longMax)) →
        route_line line = .immediate) := by
  intro line _
  cases h : skipSpaceTab line with
  | nil =>
    have hext := extract_line_number_nil h
    have hds : digitStart line = false := by
      unfold digitStart
      rw [h]
    have hroute : route_line line = .immediate := by
      unfold route_line
      rw [hext]
      decide
    refine ⟨?_, ?_, ?_⟩
    · constructor
      · rintro ⟨n, rest, hr⟩
        rw [hroute] at hr
        cases hr
      · rintro ⟨hdig, _⟩
        rw [hds] at hdig
        cases hdig
    · intro n rest hr
      rw [hroute] at hr
      cases hr
    · intro _
      exact hroute
  | cons c rest =>
    have hds : digitStart line = isDigitCh c := by
      unfold digitStart
      rw [h]
    cases hd : isDigitCh c with
    | false =>
      have hext := extract_line_number_nondigit h hd
      have hroute : route_line line = .immediate := by
        unfold route_line
        rw [hext]
        simp
      refine ⟨?_, ?_, ?_⟩
      · constructor
        · rintro ⟨n, r, hr⟩
          rw [hroute] at hr
          cases hr
        · rintro ⟨hdig, _⟩
          rw [hds, hd] at hdig
          cases hdig
      · intro n r hr
        rw [hroute] at hr
        cases hr
      · intro _
        exact hroute
    | true =>
      have hext := extract_line_number_digit h hd
      set v : Int :=
        intOfLong (min (natOfDigits ((c :: rest).takeWhile isDigitCh)) longMax)
        with hv
      by_cases hvpos : v ≥ 0
      · have hroute : route_line line =
            .stored v (skipSpaceTab ((c :: rest).dropWhile isDigitCh)) := by
          unfold route_line
          rw [hext]
          simp [hvpos]
        refine ⟨?_, ?_, ?_⟩
        · constructor
          · intro _
            exact ⟨by rw [hds, hd], hvpos⟩
          · intro _
            exact ⟨v, skipSpaceTab ((c :: rest).dropWhile isDigitCh), hroute⟩
        · intro n r hr
          rw [hroute] at hr
          cases hr
          rw [hext]
          exact ⟨rfl, hvpos, rfl⟩
        · intro hcon
          exact absurd ⟨by rw [hds, hd], hvpos⟩ hcon
      · have hroute : route_line line = .immediate := by
          unfold route_line
          rw [hext]
          simp [hvpos]
        refine ⟨?_, ?_, ?_⟩
        · constructor
          · rintro ⟨n, r, hr⟩
            rw [hroute] at hr
            cases hr
          · rintro ⟨_, hge⟩
            exact absurd hge hvpos
        · intro n r hr
          rw [hroute] at hr
          cases hr
        · intro _
          exact hroute

/-- C6 counterexample: the frozen claim is false in both directions.  The
line "0 FOO" begins with a digit and is stored — but its key is 0, not a
positive integer; and the line "2147483648 X" begins with a digit yet is
dispatched as an immediate command, because strtol's long value 2^31
narrows to the negative int -2147483648, failing the line_num >= 0 test. -/
theorem c6_counterexample :
    route_line "0 FOO".data = .stored 0 "FOO".data ∧
    ¬ ((0 : Int) > 0) ∧
    digitStart "2147483648 X".data = true ∧
    route_line "2147483648 X".data = .immediate := by
  refine ⟨by decide, by decide, by decide, by decide⟩

/-- C6 witness: the amended theorem applied to the concrete line
"10 PRINT", which is stored under key 10 with text "PRINT". -/
theorem c6_line_routing_witness :
    ((∃ n rest, route_line "10 PRINT".data = .stored n rest) ↔
      (digitStart "10 PRINT".data = true ∧
        0 ≤ intOfLong
          (min (natOfDigits ((skipSpaceTab "10 PRINT".data).takeWhile isDigitCh))
            longMax))) ∧
    (∀ n rest, route_line "10 PRINT".data = .stored n rest →
      n = (extract_line_number "10 PRINT".data).1 ∧ 0 ≤ n ∧
        rest = (extract_line_number "10 PRINT".data).2) :=
  ⟨(c6_line_routing "10 PRINT".data (by decide)).1,
    (c6_line_routing "10 PRINT".data (by decide)).2.1⟩

/-- Substring test used to state that a printed report carries no ERROR
text. -/
def prefixEq : List Char → List Char → Bool
  | [], _ => true
  | _ :: _, [] => false
  | p :: ps, x :: xs => p = x && prefixEq ps xs

/-- Whether pat occurs contiguously inside l. -/
def containsSeq (pat : List Char) : List Char → Bool
  | [] => prefixEq pat []
  | x :: xs => prefixEq pat (x :: xs) || containsSeq pat xs

/-- C4: when editor_read_line returns NULL with break_requested set (a
pending break interrupted the top-level read), the repl loop prints
exactly "?BREAK" and "READY." — a report with no ERROR suffix anywhere —
clears break_requested, and continues the immediate-mode session. -/
theorem c4_break_reporting :
    ∀ (exec : ReplState → ReplState × List String) (s : ReplState),
      s.break_requested = true →
      repl_step none exec s =
        ({ s with break_requested := false }, ["?BREAK\nREADY.\n"], .next) ∧
      containsSeq "ERROR".data "?BREAK\nREADY.\n".data = false := by
  intro exec s hb
  constructor
  · simp [repl_step, hb]
  · decide

/-- C4 witness: the theorem applied to a concrete state with a pending
break and an idle command collaborator. -/
theorem c4_break_reporting_witness :
    repl_step none (fun s => (s, []))
      { break_requested := true, exit_requested := false,
        error_occurred := false, error_message := none, program := [] } =
      ({ break_requested := false, exit_requested := false,
          error_occurred := false, error_message := none, program := [] },
        ["?BREAK\nREADY.\n"], .next) :=
  (c4_break_reporting (fun s => (s, []))
    { break_requested := true, exit_requested := false,
      error_occurred := false, error_message := none, program := [] } rfl).1

theorem errorLine_of_short {m : String} (h : m.length ≤ 247) :
    errorLine m = "?" ++ m ++ " ERROR\n" := by
  unfold errorLine
  have hdata : ("?" ++ m ++ " ERROR\n").data.length ≤ 255 := by
    have hm : m.data.length ≤ 247 := h
    simp only [String.data_append, List.length_append]
    simp only [List.length_cons, List.length_nil]
    omega
  rw [List.take_of_length_le hdata]

/-- C5 (amended): whenever an immediate command leaves error_occurred set
with a non-null error_message of at most 247 bytes (so the 256-byte
snprintf buffer does not truncate) and does not request exit, the driver
prints "?<MESSAGE> ERROR" followed by "READY.", clears both error_occurred
and error_message, and continues the session.  Longer messages are
truncated by snprintf and lose the ERROR suffix (see the
counterexample). -/
theorem c5_immediate_error_reporting :
    ∀ (exec : ReplState → ReplState × List String) (s s2 : ReplState)
      (out : List String) (line : String) (m : String),
      line.length > 0 →
      route_line line.data = .immediate →
      exec s = (s2, out) →
      s2.error_occurred = true →
      s2.error_message = some m →
      s2.exit_requested = false →
      m.length ≤ 247 →
      repl_step (some line) exec s =
        ({ s2 with error_occurred := false, error_message := none },
          out ++ ["?" ++ m ++ " ERROR\n", "READY.\n"], .next) := by
  intro exec s s2 out line m hlen hroute heq herr hmsg hexit hshort
  have herrline := errorLine_of_short hshort
  simp [repl_step, hlen, hroute, heq, herr, hmsg, hexit, herrline]

/-- C5 support: a 250-byte error message (250 letters A). -/
def longMsg : String := String.mk (List.replicate 250 (Char.ofNat 65))

set_option maxRecDepth 16384 in
/-- C5 counterexample: the frozen claim is false for long messages.  With
a 250-byte error message the driver prints the snprintf-truncated 255-byte
line, which is not of the form "?<MESSAGE> ERROR" — the ERROR suffix is
cut off — so the claimed output shape does not hold. -/
theorem c5_counterexample :
    (repl_step (some "X")
        (fun s =>
          ({ s with
              error_occurred := true, error_message := some longMsg }, []))
        { break_requested := false, exit_requested := false,
          error_occurred := false, error_message := none, program := [] }).2.1 =
      [errorLine longMsg, "READY.\n"] ∧
    errorLine longMsg ≠ "?" ++ longMsg ++ " ERROR\n" := by
  refine ⟨by decide, by decide⟩

/-- C5 witness: the amended theorem applied to a concrete command setting
a short error message. -/
theorem c5_immediate_error_reporting_witness :
    repl_step (some "X")
      (fun s =>
        ({ s with
            error_occurred := true, error_message := some "SYNTAX" }, []))
      { break_requested := false, exit_requested := false,
        error_occurred := false, error_message := none, program := [] } =
      ({ break_requested := false, exit_requested := false,
          error_occurred := false, error_message := none, program := [] },
        [] ++ ["?" ++ "SYNTAX" ++ " ERROR\n", "READY.\n"], .next) :=
  c5_immediate_error_reporting
    (fun s =>
      ({ s with
          error_occurred := true, error_message := some "SYNTAX" }, []))
    { break_requested := false, exit_requested := false,
      error_occurred := false, error_message := none, program := [] }
    { break_requested := false, exit_requested := false,
      error_occurred := true, error_message := some "SYNTAX", program := [] }
    [] "X" "SYNTAX" (by decide) (by decide) rfl rfl rfl rfl (by decide)

end CFBasic
